import Mathlib

/-! Definitions: the shallow embedding of the pipeline. -/

/-- A Python dict used as the docstore (`InMemoryStore`). -/
def DocStore : Type := Nat → Option String

/-- `InMemoryStore.mset`: iteratively assign each key/value pair;
later pairs shadow earlier ones, as in dict assignment. -/
def mset : DocStore → List (Nat × String) → DocStore
  | store, [] => store
  | store, kv :: rest =>
      mset (fun k => if k = kv.1 then some kv.2 else store k) rest

/-- A summary `Document` written to the Chroma vector store by
`add_documents_to_retriever`: page content plus the metadata fields. -/
structure SummaryDoc where
  page_content : String
  doc_id : Nat
  content_type : String
  index : Nat
deriving DecidableEq

/-- State of `ModernMultiVectorRetriever`: the Chroma collection (in
insertion order), the `InMemoryStore` docstore, and the fresh-id counter
modelling `uuid.uuid4()`. -/
structure RetrieverState where
  vectorstore : List SummaryDoc
  docstore : DocStore
  nextId : Nat

/-- The freshly initialized retriever (`_setup_retriever`): empty
collection, empty docstore. -/
def emptyRetrieverState : RetrieverState :=
  { vectorstore := [], docstore := fun _ => none, nextId := 0 }

/-- `ModernMultiVectorRetriever.add_documents_to_retriever`.
Mirrors the Python body: if either input list is falsy (empty) the call
prints a warning and returns; if the lengths differ it raises
`ValueError("Mismatch in ... lengths")` (modelled as `.error`); otherwise
it generates one fresh id per pair, appends the summary `Document`s
(with `doc_id`, `content_type` and `index` metadata) to the vector store
and `mset`s the `(id, original)` pairs into the docstore. -/
def addDocumentsToRetriever (st : RetrieverState)
    (summaries original_contents : List String) (content_type : String) :
    Except String RetrieverState :=
  if summaries = [] ∨ original_contents = [] then .ok st
  else if summaries.length ≠ original_contents.length then
    .error ("Mismatch in " ++ content_type ++
      " summaries and original content lengths")
  else
    let doc_ids := (List.range summaries.length).map (fun i => st.nextId + i)
    let summary_docs := summaries.enum.map (fun p =>
      { page_content := p.2, doc_id := st.nextId + p.1,
        content_type := content_type, index := p.1 : SummaryDoc })
    .ok { vectorstore := st.vectorstore ++ summary_docs,
          docstore := mset st.docstore (doc_ids.zip original_contents),
          nextId := st.nextId + summaries.length }

/-- The successful result of `add_documents_to_retriever` as a function of
the inputs (used to characterize the `.ok` branch). -/
def ingested (st : RetrieverState) (summaries original_contents : List String)
    (content_type : String) : RetrieverState :=
  if summaries = [] ∨ original_contents = [] then st
  else
    { vectorstore := st.vectorstore ++ summaries.enum.map (fun p =>
        { page_content := p.2, doc_id := st.nextId + p.1,
          content_type := content_type, index := p.1 : SummaryDoc }),
      docstore := mset st.docstore
        (((List.range summaries.length).map (fun i => st.nextId + i)).zip
          original_contents),
      nextId := st.nextId + summaries.length }

/-- `ModernMultiVectorRetriever.add_all_content`: text pairs, then table
pairs, then image pairs — images are added with the summary list passed as
both the summaries and the original contents.  A raised error aborts the
remaining steps and propagates (second component `some e`), leaving the
writes of the earlier, completed steps in place. -/
def add_all_content (st : RetrieverState)
    (text_summaries text_elements table_summaries table_elements
      image_summaries : List String) : RetrieverState × Option String :=
  match (if text_summaries ≠ [] ∧ text_elements ≠ [] then
      addDocumentsToRetriever st text_summaries text_elements "text"
    else .ok st) with
  | .error e => (st, some e)
  | .ok st1 =>
    match (if table_summaries ≠ [] ∧ table_elements ≠ [] then
        addDocumentsToRetriever st1 table_summaries table_elements "table"
      else .ok st1) with
    | .error e => (st1, some e)
    | .ok st2 =>
      match (if image_summaries ≠ [] then
          addDocumentsToRetriever st2 image_summaries image_summaries "image"
        else .ok st2) with
      | .error e => (st2, some e)
      | .ok st3 => (st3, none)

/-- Descending-similarity comparison between two indexed summary records,
for a query represented by its score function. -/
def descLe (score : String → Int) (a b : SummaryDoc) : Bool :=
  decide (score b.page_content ≤ score a.page_content)

/-- Stable insertion into a sorted list (ties keep the existing element
first, preserving insertion order). -/
def insertBy {α : Type} (le : α → α → Bool) (a : α) : List α → List α
  | [] => [a]
  | b :: bs => if le a b then a :: b :: bs else b :: insertBy le a bs

/-- Stable sort by `le` (insertion sort). -/
def sortBy {α : Type} (le : α → α → Bool) : List α → List α
  | [] => []
  | a :: as => insertBy le a (sortBy le as)

/-- `Chroma.similarity_search` per the Summary Index contract: stable sort
of all indexed summaries by descending similarity to the query, top `k`. -/
def similaritySearch (score : String → Int) (docs : List SummaryDoc)
    (k : Nat) : List SummaryDoc :=
  (sortBy (descLe score) docs).take k

/-- `MultiVectorRetriever.invoke`: similarity-search the vector store with
the configured `search_kwargs {"k": 4}`, collect the candidate `doc_id`s in
rank order, `mget` them from the docstore, and silently drop ids with no
docstore entry. -/
def retrieverInvoke (score : String → Int) (st : RetrieverState) :
    List String :=
  (((similaritySearch score st.vectorstore 4).map (fun d => d.doc_id)).map
    st.docstore).filterMap id

/-- The same traversal keeping each hit's similarity score alongside the
returned original content; used to relate search results to the ranking. -/
def retrieverInvokeScored (score : String → Int) (st : RetrieverState) :
    List (Int × String) :=
  (similaritySearch score st.vectorstore 4).filterMap
    (fun d => (st.docstore d.doc_id).map (fun c => (score d.page_content, c)))

/-- `ModernMultiVectorRetriever.search`: obtain the query scoring from the
embedding collaborator; on success return the invoke results truncated to
`k` (`results[:k]`); a raised upstream error is caught by the `except`
branch, which returns the one-element list `["Search error: <cause>"]`
instead of re-raising. -/
def search (embedRes : Except String (String → Int)) (st : RetrieverState)
    (k : Nat := 4) : List String :=
  match embedRes with
  | .ok score => (retrieverInvoke score st).take k
  | .error e => ["Search error: " ++ e]

/-- The result dictionary produced by `ModernQAChain.ask` and
`MultiModalRAGApp.ask_question`.  A Python success dict has no `error`
key (falsy), modelled as `error = false`; the error dicts carry a truthy
`error` value, modelled as `error = true`. -/
structure QAResult where
  question : String
  answer : String
  context_used : Nat
  error : Bool
deriving DecidableEq

/-- `format_docs` inside `_build_chain`: deterministic concatenation of
the retrieved items in retrieval order, each introduced by `Content: `
and separated by blank lines. -/
def formatDocs (docs : List String) : String :=
  String.intercalate "\n\n" (docs.map (fun d => "Content: " ++ d))

/-- One `chain.invoke({"question": q})`: format the retrieval context
(`search` with the default k = 4) and delegate to the LLM collaborator,
which may raise (`.error`). -/
def chainInvoke (llm : String → String → Except String String)
    (embedRes : Except String (String → Int)) (rst : RetrieverState)
    (q : String) : Except String String :=
  llm (formatDocs (search embedRes rst 4)) q

/-- `ModernQAChain.ask`: try the chain; on success return the answer and
the retrieval context count (no `error` key); on a raised exception
return the error dict with `error: True`. -/
def qaAsk (llm : String → String → Except String String)
    (embedRes : Except String (String → Int)) (rst : RetrieverState)
    (q : String) : QAResult :=
  match chainInvoke llm embedRes rst q with
  | .ok ans =>
      { question := q, answer := ans,
        context_used := (search embedRes rst 4).length, error := false }
  | .error e =>
      { question := q, answer := "Error processing question: " ++ e,
        context_used := 0, error := true }

/-- One entry of the list returned by `ModernQAChain.batch_ask`: success
dicts carry a `batch_index` and no `error` key (`error = false`); the
batch-failure dicts carry `error: True` and no index. -/
structure BatchResult where
  question : String
  answer : String
  batch_index : Option Nat
  error : Bool
deriving DecidableEq

/-- `chain.batch(inputs)`: run the per-question chain over the list and
re-raise the first exception (the LangChain `Runnable.batch` default,
`return_exceptions=False`). -/
def chainBatch (chainF : String → Except String String) :
    List String → Except String (List String)
  | [] => .ok []
  | q :: qs =>
    match chainF q with
    | .error e => .error e
    | .ok a =>
      match chainBatch chainF qs with
      | .error e => .error e
      | .ok as => .ok (a :: as)

/-- `ModernQAChain.batch_ask`: on success zip each question with its
answer and batch index; if `chain.batch` raises, the `except` branch maps
every question of the batch to a `Batch error` result with `error: True`. -/
def batch_ask (chainF : String → Except String String)
    (questions : List String) : List BatchResult :=
  match chainBatch chainF questions with
  | .ok answers =>
      ((questions.zip answers).enum).map (fun p =>
        { question := p.2.1, answer := p.2.2,
          batch_index := some p.1, error := false })
  | .error e =>
      questions.map (fun q =>
        { question := q, answer := "Batch error: " ++ e,
          batch_index := none, error := true })

/-- `ContentSummarizer.summarize_text_elements`: per element, append the
chain's summary, or on a raised exception the truncated error message. -/
def summarize_text_elements (text_summarizer : String → Except String String)
    (text_elements : List String) : List String :=
  text_elements.map (fun t =>
    match text_summarizer t with
    | .ok s => s
    | .error e => "Error processing text: " ++ e.take 100 ++ "...")

/-- `ContentSummarizer.summarize_table_elements`: same loop with the
table chain and the table error message. -/
def summarize_table_elements (table_summarizer : String → Except String String)
    (table_elements : List String) : List String :=
  table_elements.map (fun t =>
    match table_summarizer t with
    | .ok s => s
    | .error e => "Error processing table: " ++ e.take 100 ++ "...")

/-- `ContentSummarizer.summarize_image_elements`: same loop with the
vision chain (input the base64 payload, output `response.content`). -/
def summarize_image_elements (vision_chain : String → Except String String)
    (image_elements : List String) : List String :=
  image_elements.map (fun img =>
    match vision_chain img with
    | .ok s => s
    | .error e => "Error processing image: " ++ e.take 100 ++ "...")

/-- `MultiModalRAGApp` state: the retriever plus whether `self.qa_chain`
has been initialized (`None` versus a built `ModernQAChain`). -/
structure AppState where
  retriever : RetrieverState
  qa_chain_initialized : Bool

/-- A fresh app (`__init__`): empty retriever, `qa_chain = None`. -/
def initialApp : AppState :=
  { retriever := emptyRetrieverState, qa_chain_initialized := false }

/-- The operations driving the app state: `setup_retrieval` (ingest all
content, then build the Q&A chain) and `ask_question` (read-only). -/
inductive AppOp where
  | setup (text_summaries text_elements table_summaries table_elements
      image_summaries : List String)
  | ask (question : String)

/-- `MultiModalRAGApp.setup_retrieval` and `ask_question` as a state
transition.  If ingestion raises inside `setup_retrieval`, the exception
propagates before `self.qa_chain = ModernQAChain(...)` runs: the chain
stays uninitialized while the completed ingestion writes remain. -/
def appStep (app : AppState) : AppOp → AppState
  | AppOp.ask _ => app
  | AppOp.setup ts te tas tae imgs =>
    match add_all_content app.retriever ts te tas tae imgs with
    | (r, none) => { retriever := r, qa_chain_initialized := true }
    | (r, some _) =>
        { retriever := r, qa_chain_initialized := app.qa_chain_initialized }

/-- Run a sequence of app operations from a starting state. -/
def runTrace (app : AppState) (ops : List AppOp) : AppState :=
  ops.foldl appStep app

/-- Whether a trace operation is a `setup_retrieval` call whose ingestion
succeeds; this depends only on the argument lists, never on the state. -/
def setupOk : AppOp → Bool
  | AppOp.ask _ => false
  | AppOp.setup ts te tas tae _ =>
      (ts.isEmpty || te.isEmpty || ts.length == te.length) &&
      (tas.isEmpty || tae.isEmpty || tas.length == tae.length)

/-- `MultiModalRAGApp.ask_question`: with no Q&A chain built, return the
error dict `{"error": "Q&A chain not initialized"}` (a truthy `error`
field, no answer produced); otherwise delegate to `ModernQAChain.ask`. -/
def ask_question (llm : String → String → Except String String)
    (embedRes : Except String (String → Int)) (app : AppState)
    (q : String) : QAResult :=
  if app.qa_chain_initialized then qaAsk llm embedRes app.retriever q
  else { question := "", answer := "Q&A chain not initialized",
         context_used := 0, error := true }

/-- One guarded step of `add_all_content`: ingest the pairs when both
lists are non-empty, otherwise skip. -/
def condIngest (st : RetrieverState) (s o : List String) (ct : String) :
    RetrieverState :=
  if s ≠ [] ∧ o ≠ [] then ingested st s o ct else st

/-- The guarded image step of `add_all_content`: the summary list is
passed as both the summaries and the original contents. -/
def condIngestImage (st : RetrieverState) (imgs : List String) :
    RetrieverState :=
  if imgs ≠ [] then ingested st imgs imgs "image" else st

/-- The state produced by a fully successful `add_all_content`. -/
def ingestedAll (st : RetrieverState)
    (ts te tas tae imgs : List String) : RetrieverState :=
  condIngestImage
    (condIngest (condIngest st ts te "text") tas tae "table") imgs

/-- Score function used in concrete witnesses: similarity by length. -/
def scoreLen : String → Int := fun s => (s.length : Int)

/-- Per-question chain used by the C4 counterexample: generation fails on
the question "bad" and succeeds on every other question. -/
def chainC4 : String → Except String String :=
  fun q => if q = "bad" then .error "rate limit" else .ok ("answer to " ++ q)

/-- A per-question chain that always succeeds, for concrete witnesses. -/
def chainAllOk : String → Except String String :=
  fun q => .ok ("answer to " ++ q)

/-- A retriever state holding five indexed text pairs (more than the
retriever's top-4 cap), for the C9 witness. -/
def stFive : RetrieverState :=
  match addDocumentsToRetriever emptyRetrieverState
      ["s1", "s2", "s3", "s4", "s5"] ["o1", "o2", "o3", "o4", "o5"]
      "text" with
  | .ok st => st
  | .error _ => emptyRetrieverState

/-- An app whose Q&A chain is already built (Ready state), for the C8
witness. -/
def readyApp : AppState :=
  { retriever := emptyRetrieverState, qa_chain_initialized := true }

/-! Supporting lemmas. -/

theorem mset_lookup_notmem : ∀ (pairs : List (Nat × String)) (store : DocStore)
    (k : Nat), (∀ p ∈ pairs, p.1 ≠ k) → mset store pairs k = store k
  | [], _, _, _ => rfl
  | kv :: rest, store, k, h => by
    have hrest := mset_lookup_notmem rest
      (fun k' => if k' = kv.1 then some kv.2 else store k') k
      (fun p hp => h p (List.mem_cons_of_mem kv hp))
    have hk : k ≠ kv.1 := fun hkk => h kv (List.mem_cons_self kv rest) hkk.symm
    simpa [mset, hk] using hrest

theorem mset_lookup_mem : ∀ (pairs : List (Nat × String)) (store : DocStore)
    (k : Nat) (v : String), (k, v) ∈ pairs →
    (pairs.map Prod.fst).Nodup → mset store pairs k = some v
  | [], _, _, _, hmem, _ => absurd hmem (List.not_mem_nil _)
  | kv :: rest, store, k, v, hmem, hnd => by
    rcases List.mem_cons.mp hmem with heq | hmem'
    · subst heq
      have hnotin : ∀ p ∈ rest, p.1 ≠ k := by
        intro p hp hpk
        have hmm : ((k, v) : Nat × String).1 ∈ rest.map Prod.fst := by
          rw [show ((k, v) : Nat × String).1 = p.1 from hpk.symm]
          exact List.mem_map_of_mem Prod.fst hp
        exact (List.nodup_cons.mp hnd).1 hmm
      have hh := mset_lookup_notmem rest
        (fun k' => if k' = ((k, v) : Nat × String).1 then some v else store k')
        k hnotin
      simpa [mset] using hh
    · exact mset_lookup_mem rest _ k v hmem' (List.nodup_cons.mp hnd).2

/-- With equal input lengths the call always succeeds and produces
exactly the `ingested` state. -/
theorem addDocs_eq_ingested (st : RetrieverState) (s o : List String)
    (ct : String) (hlen : s.length = o.length) :
    addDocumentsToRetriever st s o ct = .ok (ingested st s o ct) := by
  by_cases h : s = [] ∨ o = []
  · simp [addDocumentsToRetriever, ingested, h]
  · simp [addDocumentsToRetriever, ingested, h, hlen]

/-- With both inputs non-empty and differing lengths the call raises the
mismatch `ValueError` before performing any write. -/
theorem addDocs_mismatch (st : RetrieverState) (s o : List String)
    (ct : String) (hs : s ≠ []) (ho : o ≠ [])
    (hlen : s.length ≠ o.length) :
    addDocumentsToRetriever st s o ct =
      .error ("Mismatch in " ++ ct ++
        " summaries and original content lengths") := by
  have h : ¬(s = [] ∨ o = []) := by
    intro hc
    rcases hc with hc | hc
    · exact hs hc
    · exact ho hc
  simp [addDocumentsToRetriever, h, hlen]

theorem ingested_nextId (st : RetrieverState) (s o : List String)
    (ct : String) (hlen : s.length = o.length) :
    (ingested st s o ct).nextId = st.nextId + s.length := by
  by_cases h : s = [] ∨ o = []
  · have hs0 : s.length = 0 := by
      rcases h with h | h
      · simp [h]
      · rw [hlen, h]; rfl
    simp [ingested, h, hs0]
  · simp [ingested, h]

/-- Looking up the fresh id of pair `i` right after a successful ingestion
returns the original content of pair `i`. -/
theorem ingested_lookup_new (st : RetrieverState) (s o : List String)
    (ct : String) (hlen : s.length = o.length) (i : Nat)
    (hi : i < s.length) :
    (ingested st s o ct).docstore (st.nextId + i) = o[i]? := by
  have hs : s ≠ [] := List.ne_nil_of_length_pos (Nat.lt_of_le_of_lt (Nat.zero_le i) hi)
  have hio : i < o.length := hlen ▸ hi
  have ho : o ≠ [] := List.ne_nil_of_length_pos (Nat.lt_of_le_of_lt (Nat.zero_le i) hio)
  have h : ¬(s = [] ∨ o = []) := by
    intro hc; rcases hc with hc | hc
    · exact hs hc
    · exact ho hc
  have hlen_ids : ((List.range s.length).map (fun j => st.nextId + j)).length
      = s.length := by simp
  have hzlen : i < (((List.range s.length).map (fun j => st.nextId + j)).zip
      o).length := by
    rw [List.length_zip, hlen_ids]
    exact lt_min hi hio
  have hget : (((List.range s.length).map (fun j => st.nextId + j)).zip
      o)[i] = (st.nextId + i, o[i]) := by
    rw [List.getElem_zip]
    congr 1
    rw [List.getElem_map]
    congr 1
    exact List.getElem_range i _
  have hmem : (st.nextId + i, o[i]) ∈
      (((List.range s.length).map (fun j => st.nextId + j)).zip o) := by
    rw [← hget]
    exact List.getElem_mem hzlen
  have hnd : ((((List.range s.length).map (fun j => st.nextId + j)).zip
      o).map Prod.fst).Nodup := by
    rw [List.map_fst_zip _ _ (by rw [hlen_ids, hlen])]
    exact List.Nodup.map (add_right_injective st.nextId) (List.nodup_range _)
  have := mset_lookup_mem _ st.docstore (st.nextId + i) (o[i]) hmem hnd
  rw [List.getElem?_eq_getElem hio]
  simpa [ingested, h] using this

/-- Ids strictly below the current fresh-id counter are untouched by an
ingestion (all new writes use ids at or above the counter). -/
theorem ingested_lookup_frame (st : RetrieverState) (s o : List String)
    (ct : String) (k : Nat) (hk : k < st.nextId) :
    (ingested st s o ct).docstore k = st.docstore k := by
  by_cases h : s = [] ∨ o = []
  · simp [ingested, h]
  · have hnotin : ∀ p ∈ (((List.range s.length).map
        (fun j => st.nextId + j)).zip o), p.1 ≠ k := by
      intro p hp hpk
      have hp1 : p.1 ∈ (List.range s.length).map (fun j => st.nextId + j) :=
        (List.of_mem_zip hp).1
      rcases List.mem_map.mp hp1 with ⟨j, _, hj⟩
      have : st.nextId ≤ p.1 := by rw [← hj]; exact Nat.le_add_right _ _
      exact absurd (hpk ▸ this) (Nat.not_le_of_lt hk)
    have := mset_lookup_notmem _ st.docstore k hnotin
    simpa [ingested, h] using this

/-- Ingestion only appends to the vector store: existing records stay. -/
theorem ingested_vectorstore_old (st : RetrieverState) (s o : List String)
    (ct : String) (d : SummaryDoc) (hd : d ∈ st.vectorstore) :
    d ∈ (ingested st s o ct).vectorstore := by
  by_cases h : s = [] ∨ o = []
  · simpa [ingested, h] using hd
  · simp only [ingested, if_neg h]
    exact List.mem_append_left _ hd

/-- A successful ingestion indexes, for each pair `i`, a summary record
carrying the fresh id, the summary text, and the content-type tag. -/
theorem ingested_vectorstore_new (st : RetrieverState) (s o : List String)
    (ct : String) (hlen : s.length = o.length) (i : Nat)
    (hi : i < s.length) :
    ∃ d ∈ (ingested st s o ct).vectorstore, d.doc_id = st.nextId + i ∧
      some d.page_content = s[i]? ∧ d.content_type = ct ∧ d.index = i := by
  have h : ¬(s = [] ∨ o = []) := by
    intro hc
    rcases hc with hc | hc
    · rw [hc] at hi; exact absurd hi (by simp)
    · rw [hc] at hlen; simp at hlen; rw [hlen] at hi
      exact absurd hi (by simp)
  refine ⟨{ page_content := s[i], doc_id := st.nextId + i,
            content_type := ct, index := i }, ?_, rfl, ?_, rfl, rfl⟩
  · simp only [ingested, if_neg h]
    refine List.mem_append_right _ ?_
    have hie : i < s.enum.length := by rw [List.enum_length]; exact hi
    have him : i < (List.map (fun p =>
        { page_content := p.2, doc_id := st.nextId + p.1,
          content_type := ct, index := p.1 : SummaryDoc }) s.enum).length := by
      simpa using hi
    have : (s.enum.map (fun p =>
        { page_content := p.2, doc_id := st.nextId + p.1,
          content_type := ct, index := p.1 : SummaryDoc }))[i] =
        { page_content := s[i], doc_id := st.nextId + i,
          content_type := ct, index := i } := by
      rw [List.getElem_map]
      rw [List.getElem_enum]
    rw [← this]
    exact List.getElem_mem (by simpa using hie)
  · rw [List.getElem?_eq_getElem hi]

theorem insertBy_cons_neg {α : Type} (le : α → α → Bool) (a b : α)
    (bs : List α) (h : ¬le a b = true) :
    insertBy le a (b :: bs) = b :: insertBy le a bs := by
  simp only [insertBy]
  rw [if_neg h]

theorem insertBy_cons_pos {α : Type} (le : α → α → Bool) (a b : α)
    (bs : List α) (h : le a b = true) :
    insertBy le a (b :: bs) = a :: b :: bs := by
  simp only [insertBy]
  rw [if_pos h]

theorem mem_insertBy {α : Type} (le : α → α → Bool) (a x : α) :
    ∀ l : List α, x ∈ insertBy le a l ↔ x = a ∨ x ∈ l
  | [] => by simp [insertBy]
  | b :: bs => by
    by_cases h : le a b = true
    · rw [insertBy_cons_pos le a b bs h]
      simp
    · rw [insertBy_cons_neg le a b bs h, List.mem_cons, List.mem_cons,
        mem_insertBy le a x bs]
      tauto

theorem pairwise_insertBy {α : Type} (le : α → α → Bool)
    (htot : ∀ a b, le a b = true ∨ le b a = true)
    (htr : ∀ a b c, le a b = true → le b c = true → le a c = true)
    (a : α) : ∀ l : List α, l.Pairwise (fun x y => le x y = true) →
    (insertBy le a l).Pairwise (fun x y => le x y = true)
  | [], _ => by simp [insertBy]
  | b :: bs, h => by
    rcases List.pairwise_cons.mp h with ⟨hb, hbs⟩
    by_cases hab : le a b = true
    · rw [insertBy_cons_pos le a b bs hab]
      refine List.pairwise_cons.mpr ⟨?_, h⟩
      intro x hx
      rcases List.mem_cons.mp hx with rfl | hx'
      · exact hab
      · exact htr a b x hab (hb x hx')
    · rw [insertBy_cons_neg le a b bs hab]
      refine List.pairwise_cons.mpr
        ⟨?_, pairwise_insertBy le htot htr a bs hbs⟩
      intro x hx
      rcases (mem_insertBy le a x bs).mp hx with rfl | hx'
      · exact (htot x b).resolve_left hab
      · exact hb x hx'

theorem pairwise_sortBy {α : Type} (le : α → α → Bool)
    (htot : ∀ a b, le a b = true ∨ le b a = true)
    (htr : ∀ a b c, le a b = true → le b c = true → le a c = true) :
    ∀ l : List α, (sortBy le l).Pairwise (fun x y => le x y = true)
  | [] => by simp [sortBy]
  | a :: as =>
    pairwise_insertBy le htot htr a _ (pairwise_sortBy le htot htr as)

theorem filterMap_id_map_eq (store : DocStore) (score : String → Int) :
    ∀ l : List SummaryDoc,
    ((l.map (fun d => d.doc_id)).map store).filterMap id =
      (l.filterMap (fun d => (store d.doc_id).map
        (fun c => (score d.page_content, c)))).map Prod.snd
  | [] => rfl
  | d :: ds => by
    have ih := filterMap_id_map_eq store score ds
    cases h : store d.doc_id with
    | none => simpa [h] using ih
    | some c => simpa [h] using ih

theorem retrieverInvoke_eq_scored (score : String → Int)
    (st : RetrieverState) :
    retrieverInvoke score st = (retrieverInvokeScored score st).map
      Prod.snd := by
  unfold retrieverInvoke retrieverInvokeScored
  exact filterMap_id_map_eq st.docstore score _

theorem filterMap_fst_sublist (score : String → Int) (store : DocStore) :
    ∀ l : List SummaryDoc,
    ((l.filterMap (fun d => (store d.doc_id).map
        (fun c => (score d.page_content, c)))).map Prod.fst).Sublist
      (l.map (fun d => score d.page_content))
  | [] => by simp
  | d :: ds => by
    cases h : store d.doc_id with
    | none =>
      simp only [List.filterMap_cons, h, Option.map_none, List.map_cons]
      exact List.Sublist.cons _ (filterMap_fst_sublist score store ds)
    | some c =>
      simp only [List.filterMap_cons, h, Option.map_some, List.map_cons]
      exact List.Sublist.cons₂ _ (filterMap_fst_sublist score store ds)

/-- The similarity scores of the retrieved hits are non-increasing in the
order they are returned. -/
theorem scored_sorted (score : String → Int) (st : RetrieverState) :
    ((retrieverInvokeScored score st).map Prod.fst).Pairwise
      (fun a b : Int => b ≤ a) := by
  have htot : ∀ a b : SummaryDoc,
      descLe score a b = true ∨ descLe score b a = true := by
    intro a b
    rcases Int.le_total (score b.page_content) (score a.page_content) with
      h | h
    · exact Or.inl (decide_eq_true h)
    · exact Or.inr (decide_eq_true h)
  have htr : ∀ a b c : SummaryDoc, descLe score a b = true →
      descLe score b c = true → descLe score a c = true := by
    intro a b c hab hbc
    exact decide_eq_true
      (le_trans (of_decide_eq_true hbc) (of_decide_eq_true hab))
  have hs : (similaritySearch score st.vectorstore 4).Pairwise
      (fun x y => descLe score x y = true) :=
    List.Pairwise.sublist (List.take_sublist _ _)
      (pairwise_sortBy (descLe score) htot htr st.vectorstore)
  have hmap : ((similaritySearch score st.vectorstore 4).map
      (fun d => score d.page_content)).Pairwise (fun a b : Int => b ≤ a) :=
    List.Pairwise.map _ (fun a b hab => of_decide_eq_true hab) hs
  exact List.Pairwise.sublist (filterMap_fst_sublist score st.docstore _) hmap

/-- The underlying retriever never yields more than the configured top-4. -/
theorem retrieverInvoke_length_le (score : String → Int)
    (st : RetrieverState) : (retrieverInvoke score st).length ≤ 4 := by
  unfold retrieverInvoke
  refine le_trans (List.length_filterMap_le _ _) ?_
  rw [List.length_map, List.length_map]
  unfold similaritySearch
  rw [List.length_take]
  exact min_le_left _ _

theorem chainBatch_ok_of_all (f : String → Except String String) :
    ∀ qs : List String, (∀ q ∈ qs, ∃ a, f q = .ok a) →
    ∃ ans, chainBatch f qs = .ok ans ∧ ans.length = qs.length
  | [], _ => ⟨[], rfl, rfl⟩
  | q :: qs, h => by
    obtain ⟨a, ha⟩ := h q (List.mem_cons_self q qs)
    obtain ⟨ans, hans, hlen⟩ := chainBatch_ok_of_all f qs
      (fun q' hq' => h q' (List.mem_cons_of_mem q hq'))
    refine ⟨a :: ans, ?_, by simp [hlen]⟩
    simp [chainBatch, ha, hans]

theorem chainBatch_error_of_ex (f : String → Except String String) :
    ∀ qs : List String, (∃ q ∈ qs, ∃ e, f q = .error e) →
    ∃ e, chainBatch f qs = .error e
  | [], h => absurd h (by simp)
  | q :: qs, h => by
    obtain ⟨q', hq', e, he⟩ := h
    rcases List.mem_cons.mp hq' with rfl | hmem
    · exact ⟨e, by simp [chainBatch, he]⟩
    · cases hfq : f q with
      | error e2 => exact ⟨e2, by simp [chainBatch, hfq]⟩
      | ok a =>
        obtain ⟨e3, h3⟩ := chainBatch_error_of_ex f qs ⟨q', hmem, e, he⟩
        exact ⟨e3, by simp [chainBatch, hfq, h3]⟩

theorem condStep_ok (st : RetrieverState) (s o : List String) (ct : String)
    (h : (s.isEmpty || o.isEmpty || s.length == o.length) = true) :
    (if s ≠ [] ∧ o ≠ [] then addDocumentsToRetriever st s o ct
     else Except.ok st) =
      .ok (if s ≠ [] ∧ o ≠ [] then ingested st s o ct else st) := by
  by_cases hA : s ≠ [] ∧ o ≠ []
  · rw [if_pos hA, if_pos hA]
    have hs : s.isEmpty = false := by
      rcases hA with ⟨hs, _⟩
      revert hs
      cases s <;> simp
    have ho : o.isEmpty = false := by
      rcases hA with ⟨_, ho⟩
      revert ho
      cases o <;> simp
    rw [hs, ho] at h
    simp only [Bool.false_or] at h
    have hlen : s.length = o.length := by simpa using h
    exact addDocs_eq_ingested st s o ct hlen
  · rw [if_neg hA, if_neg hA]

theorem condStep_error (st : RetrieverState) (s o : List String)
    (ct : String)
    (h : (s.isEmpty || o.isEmpty || s.length == o.length) = false) :
    (if s ≠ [] ∧ o ≠ [] then addDocumentsToRetriever st s o ct
     else Except.ok st) =
      .error ("Mismatch in " ++ ct ++
        " summaries and original content lengths") := by
  have hs : s.isEmpty = false := by
    revert h
    cases s.isEmpty <;> simp
  have ho : o.isEmpty = false := by
    revert h
    cases o.isEmpty <;> simp
  have hlenb : (s.length == o.length) = false := by
    rw [hs, ho] at h
    simpa using h
  have hlen : s.length ≠ o.length := by
    intro hc
    rw [hc] at hlenb
    simp at hlenb
  have hsne : s ≠ [] := by
    intro hc
    rw [hc] at hs
    simp at hs
  have hone : o ≠ [] := by
    intro hc
    rw [hc] at ho
    simp at ho
  rw [if_pos ⟨hsne, hone⟩]
  exact addDocs_mismatch st s o ct hsne hone hlen

theorem imgStep_ok (st : RetrieverState) (imgs : List String) :
    (if imgs ≠ [] then addDocumentsToRetriever st imgs imgs "image"
     else Except.ok st) =
      .ok (if imgs ≠ [] then ingested st imgs imgs "image" else st) := by
  by_cases hA : imgs ≠ []
  · rw [if_pos hA, if_pos hA]
    exact addDocs_eq_ingested st imgs imgs "image" rfl
  · rw [if_neg hA, if_neg hA]

theorem add_all_eq_ok (st : RetrieverState) (ts te tas tae imgs : List String)
    (h1 : (ts.isEmpty || te.isEmpty || ts.length == te.length) = true)
    (h2 : (tas.isEmpty || tae.isEmpty || tas.length == tae.length) = true) :
    add_all_content st ts te tas tae imgs =
      (ingestedAll st ts te tas tae imgs, none) := by
  unfold add_all_content ingestedAll condIngest condIngestImage
  rw [condStep_ok st ts te "text" h1]
  dsimp only
  rw [condStep_ok _ tas tae "table" h2]
  dsimp only
  rw [imgStep_ok]

/-- `add_all_content` finishes without raising exactly when both the text
and the table step have consistent argument lengths; the image step can
never raise because its two lists are the same list. -/
theorem add_all_snd_none_iff (st : RetrieverState)
    (ts te tas tae imgs : List String) :
    (add_all_content st ts te tas tae imgs).2 = none ↔
      setupOk (AppOp.setup ts te tas tae imgs) = true := by
  constructor
  · intro h
    by_contra hno
    cases hb1 : (ts.isEmpty || te.isEmpty || ts.length == te.length) with
    | false =>
      unfold add_all_content at h
      rw [condStep_error st ts te "text" hb1] at h
      dsimp only at h
      exact absurd h (by simp)
    | true =>
      cases hb2 : (tas.isEmpty || tae.isEmpty ||
          tas.length == tae.length) with
      | false =>
        unfold add_all_content at h
        rw [condStep_ok st ts te "text" hb1] at h
        dsimp only at h
        rw [condStep_error _ tas tae "table" hb2] at h
        dsimp only at h
        exact absurd h (by simp)
      | true =>
        refine hno ?_
        simp only [setupOk, hb1, hb2, Bool.and_self]
  · intro h
    simp only [setupOk] at h
    obtain ⟨h1, h2⟩ := (Bool.and_eq_true _ _).mp h
    rw [add_all_eq_ok st ts te tas tae imgs h1 h2]

theorem appStep_init_true (app : AppState) (op : AppOp)
    (h : app.qa_chain_initialized = true) :
    (appStep app op).qa_chain_initialized = true := by
  cases op with
  | ask q => exact h
  | setup ts te tas tae imgs =>
    simp only [appStep]
    rcases hc : add_all_content app.retriever ts te tas tae imgs with ⟨r, e⟩
    cases e with
    | none => rfl
    | some err => exact h

theorem appStep_init_false (app : AppState) (op : AppOp)
    (h : app.qa_chain_initialized = false) :
    (appStep app op).qa_chain_initialized = setupOk op := by
  cases op with
  | ask q =>
    rw [show setupOk (AppOp.ask q) = false from rfl]
    exact h
  | setup ts te tas tae imgs =>
    simp only [appStep]
    rcases hc : add_all_content app.retriever ts te tas tae imgs with ⟨r, e⟩
    cases e with
    | none =>
      have hok : setupOk (AppOp.setup ts te tas tae imgs) = true := by
        rw [← add_all_snd_none_iff app.retriever ts te tas tae imgs, hc]
      rw [hok]
    | some err =>
      have hnotok : ¬setupOk (AppOp.setup ts te tas tae imgs) = true := by
        rw [← add_all_snd_none_iff app.retriever ts te tas tae imgs, hc]
        simp
      have hf : setupOk (AppOp.setup ts te tas tae imgs) = false := by
        revert hnotok
        cases setupOk (AppOp.setup ts te tas tae imgs) <;> simp
      rw [hf]
      exact h

theorem runTrace_init_true : ∀ (ops : List AppOp) (app : AppState),
    app.qa_chain_initialized = true →
    (runTrace app ops).qa_chain_initialized = true
  | [], _, h => h
  | op :: ops, app, h =>
    runTrace_init_true ops (appStep app op) (appStep_init_true app op h)

/-- Starting uninitialized, the Q&A chain is initialized after a trace
exactly when the trace contains a successful `setup_retrieval` call. -/
theorem runTrace_init_iff : ∀ (ops : List AppOp) (app : AppState),
    app.qa_chain_initialized = false →
    ((runTrace app ops).qa_chain_initialized = true ↔
      ops.any setupOk = true)
  | [], app, h => by simp [runTrace, h]
  | op :: ops, app, h => by
    have hstep := appStep_init_false app op h
    by_cases hok : setupOk op = true
    · have hinit : (appStep app op).qa_chain_initialized = true := by
        rw [hstep, hok]
      have htail := runTrace_init_true ops _ hinit
      constructor
      · intro _
        simp [hok]
      · intro _
        exact htail
    · have hfalse : (appStep app op).qa_chain_initialized = false := by
        rw [hstep]
        revert hok
        cases setupOk op <;> simp
      have ih := runTrace_init_iff ops (appStep app op) hfalse
      have hokf : setupOk op = false := by
        revert hok
        cases setupOk op <;> simp
      calc (runTrace app (op :: ops)).qa_chain_initialized = true
          ↔ (runTrace (appStep app op) ops).qa_chain_initialized = true :=
            Iff.rfl
        _ ↔ ops.any setupOk = true := ih
        _ ↔ (op :: ops).any setupOk = true := by simp [hokf]

theorem chainBatch_ok_length (f : String → Except String String) :
    ∀ (qs : List String) (ans : List String),
    chainBatch f qs = .ok ans → ans.length = qs.length
  | [], ans, h => by
    simp only [chainBatch] at h
    cases h
    rfl
  | q :: qs, ans, h => by
    simp only [chainBatch] at h
    cases hf : f q with
    | error e =>
      rw [hf] at h
      exact absurd h (by simp)
    | ok a =>
      rw [hf] at h
      cases hc : chainBatch f qs with
      | error e =>
        rw [hc] at h
        exact absurd h (by simp)
      | ok as =>
        rw [hc] at h
        cases h
        simp [chainBatch_ok_length f qs as hc]

theorem map_eq_replicate {α β : Type} (f : α → β) (b : β)
    (hf : ∀ a, f a = b) :
    ∀ l : List α, l.map f = List.replicate l.length b
  | [] => rfl
  | a :: l => by
    simp only [List.map_cons, hf a, map_eq_replicate f b hf l,
      List.length_cons, List.replicate_succ]

theorem batch_ask_questions (f : String → Except String String)
    (qs : List String) :
    (batch_ask f qs).map (fun r => r.question) = qs := by
  unfold batch_ask
  cases hb : chainBatch f qs with
  | error e =>
    rw [List.map_map]
    rw [show ((fun r => r.question) ∘ fun q =>
      ({ question := q, answer := "Batch error: " ++ e, batch_index := none,
         error := true } : BatchResult)) = (id : String → String) from rfl]
    exact List.map_id qs
  | ok ans =>
    have hlen := chainBatch_ok_length f qs ans hb
    rw [List.map_map]
    have h1 : ((qs.zip ans).enum.map
        ((fun r => r.question) ∘ (fun p =>
          ({ question := p.2.1, answer := p.2.2, batch_index := some p.1,
             error := false } : BatchResult)))) =
        ((qs.zip ans).enum.map (fun p => p.2.1)) := rfl
    rw [h1]
    have h2 : ((qs.zip ans).enum.map (fun p => p.2.1)) =
        (((qs.zip ans).enum.map Prod.snd).map Prod.fst) := by
      rw [List.map_map]
      rfl
    rw [h2, List.enum_map_snd, List.map_fst_zip]
    rw [hlen]

theorem condIngest_nextId (st : RetrieverState) (s o : List String)
    (ct : String) (hlen : s.length = o.length) :
    (condIngest st s o ct).nextId = st.nextId + s.length := by
  unfold condIngest
  by_cases hA : s ≠ [] ∧ o ≠ []
  · rw [if_pos hA]
    exact ingested_nextId st s o ct hlen
  · rw [if_neg hA]
    by_cases hs : s = []
    · rw [hs]
      rfl
    · have ho : o = [] := by
        by_contra hoc
        exact hA ⟨hs, hoc⟩
      rw [ho] at hlen
      simp only [List.length_nil] at hlen
      rw [hlen]
      rfl

theorem condIngest_frame (st : RetrieverState) (s o : List String)
    (ct : String) (k : Nat) (hk : k < st.nextId) :
    (condIngest st s o ct).docstore k = st.docstore k := by
  unfold condIngest
  by_cases hA : s ≠ [] ∧ o ≠ []
  · rw [if_pos hA]
    exact ingested_lookup_frame st s o ct k hk
  · rw [if_neg hA]

theorem condIngest_vs_old (st : RetrieverState) (s o : List String)
    (ct : String) (d : SummaryDoc) (hd : d ∈ st.vectorstore) :
    d ∈ (condIngest st s o ct).vectorstore := by
  unfold condIngest
  by_cases hA : s ≠ [] ∧ o ≠ []
  · rw [if_pos hA]
    exact ingested_vectorstore_old st s o ct d hd
  · rw [if_neg hA]
    exact hd

/-! Claim theorems. -/

/-- C1: Pairing invariant — for every successful
`add_documents_to_retriever` call with equal-length summaries and
originals, and for every index `i`, the fresh id generated for pair `i`
is afterwards present in both stores: the summary index contains a
record tagged with that id (carrying the summary text and content-type
tag), and looking the id up in the content store returns exactly
`originals[i]`. -/
theorem C1_pairing_invariant (st : RetrieverState)
    (summaries originals : List String) (ct : String)
    (hlen : summaries.length = originals.length)
    (i : Nat) (hi : i < summaries.length) :
    ∃ st', addDocumentsToRetriever st summaries originals ct = .ok st' ∧
      st'.docstore (st.nextId + i) = originals[i]? ∧
      ∃ d ∈ st'.vectorstore, d.doc_id = st.nextId + i ∧
        some d.page_content = summaries[i]? ∧ d.content_type = ct := by
  refine ⟨ingested st summaries originals ct,
    addDocs_eq_ingested st summaries originals ct hlen,
    ingested_lookup_new st summaries originals ct hlen i hi, ?_⟩
  obtain ⟨d, hd, h1, h2, h3, _⟩ :=
    ingested_vectorstore_new st summaries originals ct hlen i hi
  exact ⟨d, hd, h1, h2, h3⟩

/-- C1 witness: ingesting two concrete text pairs into the fresh
retriever and checking pair 1 in both stores. -/
theorem C1_pairing_invariant_witness :
    ∃ st', addDocumentsToRetriever emptyRetrieverState ["sumA", "sumB"]
        ["origA", "origB"] "text" = .ok st' ∧
      st'.docstore (emptyRetrieverState.nextId + 1) =
        (["origA", "origB"] : List String)[1]? ∧
      ∃ d ∈ st'.vectorstore, d.doc_id = emptyRetrieverState.nextId + 1 ∧
        some d.page_content = (["sumA", "sumB"] : List String)[1]? ∧
        d.content_type = "text" :=
  C1_pairing_invariant emptyRetrieverState ["sumA", "sumB"]
    ["origA", "origB"] "text" rfl 1 (by decide)

/-- C2 counterexample: with `summaries = []` and `originals = ["orig"]`
the lengths differ (0 ≠ 1) and exactly one sequence is empty, yet the
call returns normally with the state unchanged — the empty-input guard
fires before the mismatch check — refuting the claim that every
mismatched call, including the one-empty cases, raises `MismatchError`. -/
theorem C2_counterexample :
    addDocumentsToRetriever emptyRetrieverState [] ["orig"] "text" =
      .ok emptyRetrieverState := rfl

/-- C2 (amended): for every call with BOTH sequences non-empty and
differing lengths, the call raises the mismatch `ValueError` — the error
is returned before any write, so both stores are left exactly as before
the call; when either sequence is empty the call instead no-ops without
raising. -/
theorem C2_mismatch_rejection (st : RetrieverState)
    (summaries originals : List String) (ct : String)
    (hs : summaries ≠ []) (ho : originals ≠ [])
    (hlen : summaries.length ≠ originals.length) :
    addDocumentsToRetriever st summaries originals ct =
      .error ("Mismatch in " ++ ct ++
        " summaries and original content lengths") :=
  addDocs_mismatch st summaries originals ct hs ho hlen

/-- C2 witness: a concrete mismatched (2 vs 1) non-empty call raises. -/
theorem C2_mismatch_rejection_witness :
    addDocumentsToRetriever emptyRetrieverState ["s1", "s2"] ["o1"]
      "text" =
      .error ("Mismatch in " ++ "text" ++
        " summaries and original content lengths") :=
  C2_mismatch_rejection emptyRetrieverState ["s1", "s2"] ["o1"] "text"
    (by decide) (by decide) (by decide)

/-- C7: Empty-input no-op — for every content type, an ingestion call in
which either input sequence is empty returns successfully with the state
unchanged: identical contents and counts in both stores, and no raise. -/
theorem C7_empty_input_noop (st : RetrieverState)
    (summaries originals : List String) (ct : String)
    (h : summaries = [] ∨ originals = []) :
    addDocumentsToRetriever st summaries originals ct = .ok st := by
  unfold addDocumentsToRetriever
  rw [if_pos h]

/-- C7 witness: a concrete empty-summaries call no-ops. -/
theorem C7_empty_input_noop_witness :
    addDocumentsToRetriever stFive [] [] "table" = .ok stFive :=
  C7_empty_input_noop stFive [] [] "table" (Or.inl rfl)

/-- C3 counterexample: on an upstream embedding/store failure, `search`
does not surface a `RetrievalError`: the `except` branch catches the
cause and returns it INSIDE the result sequence as the single element
`"Search error: <cause>"`, and the call returns normally — refuting the
claimed error contract at the concrete input below. -/
theorem C3_counterexample :
    search (.error "connection refused") emptyRetrieverState 4 =
      ["Search error: " ++ "connection refused"] := rfl

/-- C3 (amended): `search` never raises at all.  When the underlying
retrieval succeeds and finds nothing it returns the empty sequence, and
on an upstream failure the caught cause is returned inside the result
sequence as the one-element list `["Search error: <cause>"]` instead of
being surfaced as a `RetrievalError`. -/
theorem C3_search_error_contract (score : String → Int)
    (st : RetrieverState) (k : Nat) (e : String)
    (hempty : retrieverInvoke score st = []) :
    search (.ok score) st k = [] ∧
    search (.error e) st k = ["Search error: " ++ e] := by
  constructor
  · show (retrieverInvoke score st).take k = []
    rw [hempty]
    exact List.take_nil
  · rfl

/-- C3 witness: the fresh empty retriever yields no hits, and a failing
embedding collaborator yields the in-band error element. -/
theorem C3_search_error_contract_witness :
    search (.ok scoreLen) emptyRetrieverState 4 = [] ∧
    search (.error "boom") emptyRetrieverState 4 =
      ["Search error: " ++ "boom"] :=
  C3_search_error_contract scoreLen emptyRetrieverState 4 "boom" rfl

/-- C5: Search ordering and monotonic truncation — with the embedding of
the query available (the query represented by its similarity score
function), `search(q, k)` returns at most `k` results, it equals the
contents of the first `k` scored hits whose similarity scores are
non-increasing in result order, and it is a prefix of `search(q, k+1)`. -/
theorem C5_search_ordering (score : String → Int) (st : RetrieverState)
    (k : Nat) :
    (search (.ok score) st k).length ≤ k ∧
    search (.ok score) st k <+: search (.ok score) st (k + 1) ∧
    search (.ok score) st k =
      ((retrieverInvokeScored score st).take k).map Prod.snd ∧
    (((retrieverInvokeScored score st).take k).map Prod.fst).Pairwise
      (fun a b : Int => b ≤ a) := by
  refine ⟨?_, ?_, ?_, ?_⟩
  · show ((retrieverInvoke score st).take k).length ≤ k
    rw [List.length_take]
    exact min_le_left _ _
  · show (retrieverInvoke score st).take k <+:
      (retrieverInvoke score st).take (k + 1)
    have heq : (retrieverInvoke score st).take k =
        ((retrieverInvoke score st).take (k + 1)).take k := by
      rw [List.take_take, min_eq_left (Nat.le_succ k)]
    rw [heq]
    exact List.take_prefix _ _
  · show (retrieverInvoke score st).take k = _
    rw [retrieverInvoke_eq_scored, List.map_take]
  · rw [List.map_take]
    exact List.Pairwise.sublist (List.take_sublist _ _)
      (scored_sorted score st)

/-- C9: Implicit result cap — the underlying retriever is fixed to top-4
(`search_kwargs {"k": 4}`) and `search`'s `k` parameter only truncates
that list, so for every `k` greater than 4 the call still returns at most
4 results and coincides with `search` at `k = 4`: `k` can shrink but
never enlarge the result set beyond 4. -/
theorem C9_result_cap (score : String → Int) (st : RetrieverState)
    (k : Nat) (hk : 4 < k) :
    (search (.ok score) st k).length ≤ 4 ∧
    search (.ok score) st k = search (.ok score) st 4 := by
  have hlen := retrieverInvoke_length_le score st
  constructor
  · show ((retrieverInvoke score st).take k).length ≤ 4
    rw [List.length_take]
    exact le_trans (min_le_right _ _) hlen
  · show (retrieverInvoke score st).take k =
      (retrieverInvoke score st).take 4
    rw [List.take_of_length_le (le_trans hlen (le_of_lt hk)),
      List.take_of_length_le hlen]

/-- C9 witness: five items indexed, `k = 10` still returns at most 4 and
equals the `k = 4` result. -/
theorem C9_result_cap_witness :
    (search (.ok scoreLen) stFive 10).length ≤ 4 ∧
    search (.ok scoreLen) stFive 10 = search (.ok scoreLen) stFive 4 :=
  C9_result_cap scoreLen stFive 10 (by decide)

/-- C4 counterexample: in `batch_ask ["good", "bad"]` where only "bad"
triggers a generation failure, `chain.batch` re-raises and the `except`
branch marks the WHOLE batch failed: the first (succeeding) question's
result also carries `error: true` instead of the claimed
`[error: false, error: true]` — one question's failure does contaminate
the rest of the batch. -/
theorem C4_counterexample :
    (batch_ask chainC4 ["good", "bad"]).map (fun r => r.error) =
      [true, true] := rfl

/-- C4 (amended): `batch_ask` returns one result per question in input
order, but failure isolation holds only at batch granularity: when every
question's generation succeeds, all results carry `error = false`; when
any question's generation fails, the single `chain.batch` call raises and
EVERY result of the batch — the succeeding questions' included — carries
`error = true`. -/
theorem C4_batch_contamination (chainF : String → Except String String)
    (qs : List String) :
    (batch_ask chainF qs).map (fun r => r.question) = qs ∧
    ((∀ q ∈ qs, ∃ a, chainF q = .ok a) →
      (batch_ask chainF qs).map (fun r => r.error) =
        List.replicate qs.length false) ∧
    ((∃ q ∈ qs, ∃ e, chainF q = .error e) →
      (batch_ask chainF qs).map (fun r => r.error) =
        List.replicate qs.length true) := by
  refine ⟨batch_ask_questions chainF qs, ?_, ?_⟩
  · intro h
    obtain ⟨ans, hb, hlen⟩ := chainBatch_ok_of_all chainF qs h
    unfold batch_ask
    rw [hb, List.map_map]
    have hl : ((qs.zip ans).enum).length = qs.length := by
      rw [List.enum_length, List.length_zip, hlen, min_self]
    rw [← hl]
    exact map_eq_replicate _ false (fun p => rfl) ((qs.zip ans).enum)
  · intro h
    obtain ⟨e, hb⟩ := chainBatch_error_of_ex chainF qs h
    unfold batch_ask
    rw [hb, List.map_map]
    exact map_eq_replicate _ true (fun q => rfl) qs

/-- C4 witness: with an all-succeeding chain, a concrete two-question
batch preserves order and reports no errors. -/
theorem C4_batch_contamination_witness :
    (batch_ask chainAllOk ["q1", "q2"]).map (fun r => r.question) =
      ["q1", "q2"] ∧
    (batch_ask chainAllOk ["q1", "q2"]).map (fun r => r.error) =
      List.replicate (["q1", "q2"] : List String).length false := by
  have h := C4_batch_contamination chainAllOk ["q1", "q2"]
  exact ⟨h.1, h.2.1 (fun q _ => ⟨"answer to " ++ q, rfl⟩)⟩

/-- C10: Summarizer totality and length preservation — each of the three
summarizers is a total function (never raises), returns exactly one
output per input element in order, and position `i` of the output is the
collaborator's summary when it succeeds on element `i` and the
corresponding truncated error-message string when it raises; hence the
pipeline always meets ingestion's length-equality precondition. -/
theorem C10_summarizer_totality
    (textF tableF visionF : String → Except String String)
    (textElems tableElems imageElems : List String) (i : Nat) :
    (summarize_text_elements textF textElems).length = textElems.length ∧
    (summarize_table_elements tableF tableElems).length
      = tableElems.length ∧
    (summarize_image_elements visionF imageElems).length
      = imageElems.length ∧
    (summarize_text_elements textF textElems)[i]? =
      (textElems[i]?).map (fun t =>
        match textF t with
        | .ok s => s
        | .error e => "Error processing text: " ++ e.take 100 ++ "...") ∧
    (summarize_table_elements tableF tableElems)[i]? =
      (tableElems[i]?).map (fun t =>
        match tableF t with
        | .ok s => s
        | .error e => "Error processing table: " ++ e.take 100 ++ "...") ∧
    (summarize_image_elements visionF imageElems)[i]? =
      (imageElems[i]?).map (fun t =>
        match visionF t with
        | .ok s => s
        | .error e => "Error processing image: " ++ e.take 100 ++ "...") := by
  refine ⟨?_, ?_, ?_, ?_, ?_, ?_⟩ <;>
    simp [summarize_text_elements, summarize_table_elements,
      summarize_image_elements]

/-- C8: Uninitialized state — for every question, asking before the Q&A
chain is built (`qa_chain = None`) returns the error result with a truthy
`error` field and no generated answer; and the Uninitialized → Ready
transition happens exactly once, after the first ingestion: starting from
any uninitialized app, the chain is initialized after a trace exactly
when the trace contains a successful `setup_retrieval` call, and any app
already Ready stays Ready under every further trace. -/
theorem C8_uninitialized_state (llm : String → String → Except String String)
    (embedRes : Except String (String → Int)) (app : AppState)
    (h : app.qa_chain_initialized = false) (q : String) (ops : List AppOp)
    (app2 : AppState) (h2 : app2.qa_chain_initialized = true) :
    (ask_question llm embedRes app q).error = true ∧
    ((runTrace app ops).qa_chain_initialized = true ↔
      ops.any setupOk = true) ∧
    (runTrace app2 ops).qa_chain_initialized = true := by
  refine ⟨?_, runTrace_init_iff ops app h, runTrace_init_true ops app2 h2⟩
  unfold ask_question
  rw [h]
  rfl

/-- C8 witness: the fresh app rejects a question with an error result; one
successful `setup_retrieval` trace initializes the chain; and an already
Ready app stays Ready. -/
theorem C8_uninitialized_state_witness :
    (ask_question (fun _ q => Except.ok q) (Except.error "net") initialApp
      "What is in the image?").error = true ∧
    ((runTrace initialApp
        [AppOp.setup ["tsum"] ["telt"] [] [] []]).qa_chain_initialized
        = true ↔
      ([AppOp.setup ["tsum"] ["telt"] [] [] []]).any setupOk = true) ∧
    (runTrace readyApp
      [AppOp.setup ["tsum"] ["telt"] [] [] []]).qa_chain_initialized
      = true :=
  C8_uninitialized_state (fun _ q => Except.ok q) (Except.error "net")
    initialApp rfl "What is in the image?"
    [AppOp.setup ["tsum"] ["telt"] [] [] []] readyApp rfl

/-- C6: Image special case — under `add_all_content` (with consistent
text and table pair lengths, so the call succeeds), the image step passes
the summary list as BOTH the summaries and the originals: the pair
written for image index `i` is `(s[i], s[i])`, i.e. the content stored —
and later returned by search — for an image entry is the summary text
itself, never raw image bytes, while the text and table steps store
`(summary, original-payload)` pairs. -/
theorem C6_image_special_case (st : RetrieverState)
    (ts te tas tae imgs : List String)
    (h1 : ts.length = te.length) (h2 : tas.length = tae.length) :
    ∃ st', add_all_content st ts te tas tae imgs = (st', none) ∧
      (∀ i, i < imgs.length →
        st'.docstore (st.nextId + ts.length + tas.length + i) = imgs[i]? ∧
        ∃ d ∈ st'.vectorstore,
          d.doc_id = st.nextId + ts.length + tas.length + i ∧
          some d.page_content = imgs[i]? ∧ d.content_type = "image") ∧
      (∀ i, i < ts.length →
        st'.docstore (st.nextId + i) = te[i]? ∧
        ∃ d ∈ st'.vectorstore, d.doc_id = st.nextId + i ∧
          some d.page_content = ts[i]? ∧ d.content_type = "text") ∧
      (∀ i, i < tas.length →
        st'.docstore (st.nextId + ts.length + i) = tae[i]? ∧
        ∃ d ∈ st'.vectorstore, d.doc_id = st.nextId + ts.length + i ∧
          some d.page_content = tas[i]? ∧ d.content_type = "table") := by
  have hb1 : (ts.isEmpty || te.isEmpty || ts.length == te.length) = true :=
    by simp [h1]
  have hb2 : (tas.isEmpty || tae.isEmpty || tas.length == tae.length)
      = true := by simp [h2]
  have hn1 : (condIngest st ts te "text").nextId = st.nextId + ts.length :=
    condIngest_nextId st ts te "text" h1
  have hn2 : (condIngest (condIngest st ts te "text") tas tae
      "table").nextId = st.nextId + ts.length + tas.length := by
    rw [condIngest_nextId _ tas tae "table" h2, hn1]
  refine ⟨ingestedAll st ts te tas tae imgs,
    add_all_eq_ok st ts te tas tae imgs hb1 hb2, ?_, ?_, ?_⟩
  · intro i hi
    have himgne : imgs ≠ [] := by
      intro hc
      rw [hc] at hi
      exact absurd hi (by simp)
    have hAll : ingestedAll st ts te tas tae imgs =
        ingested (condIngest (condIngest st ts te "text") tas tae "table")
          imgs imgs "image" := by
      unfold ingestedAll condIngestImage
      rw [if_pos himgne]
    constructor
    · rw [hAll]
      have hlk := ingested_lookup_new
        (condIngest (condIngest st ts te "text") tas tae "table")
        imgs imgs "image" rfl i hi
      rw [hn2] at hlk
      exact hlk
    · rw [hAll]
      have hvs := ingested_vectorstore_new
        (condIngest (condIngest st ts te "text") tas tae "table")
        imgs imgs "image" rfl i hi
      rw [hn2] at hvs
      obtain ⟨d, hd, ha, hb, hcc, _⟩ := hvs
      exact ⟨d, hd, ha, hb, hcc⟩
  · intro i hi
    have htsne : ts ≠ [] := by
      intro hc
      rw [hc] at hi
      exact absurd hi (by simp)
    have htene : te ≠ [] := by
      intro hc
      rw [hc] at h1
      simp only [List.length_nil] at h1
      rw [h1] at hi
      exact absurd hi (by simp)
    have hc1 : condIngest st ts te "text" = ingested st ts te "text" := by
      unfold condIngest
      rw [if_pos ⟨htsne, htene⟩]
    have hkey : st.nextId + i < st.nextId + ts.length :=
      Nat.add_lt_add_left hi _
    have hlt1 : st.nextId + i < (condIngest st ts te "text").nextId := by
      rw [hn1]
      exact hkey
    have hlt2 : st.nextId + i <
        (condIngest (condIngest st ts te "text") tas tae "table").nextId := by
      rw [hn2]
      exact lt_of_lt_of_le hkey (Nat.le_add_right _ _)
    have hlk1 : (condIngest st ts te "text").docstore (st.nextId + i)
        = te[i]? := by
      rw [hc1]
      exact ingested_lookup_new st ts te "text" h1 i hi
    have hlk2 : (condIngest (condIngest st ts te "text") tas tae
        "table").docstore (st.nextId + i) = te[i]? := by
      rw [condIngest_frame _ tas tae "table" _ hlt1]
      exact hlk1
    have hlk3 : (ingestedAll st ts te tas tae imgs).docstore
        (st.nextId + i) = te[i]? := by
      unfold ingestedAll condIngestImage
      by_cases himg : imgs ≠ []
      · rw [if_pos himg,
          ingested_lookup_frame _ imgs imgs "image" _ hlt2]
        exact hlk2
      · rw [if_neg himg]
        exact hlk2
    obtain ⟨d, hd, ha, hb, hcc, _⟩ :=
      ingested_vectorstore_new st ts te "text" h1 i hi
    have hd1 : d ∈ (condIngest st ts te "text").vectorstore := by
      rw [hc1]
      exact hd
    have hd2 : d ∈ (condIngest (condIngest st ts te "text") tas tae
        "table").vectorstore := condIngest_vs_old _ tas tae "table" d hd1
    have hd3 : d ∈ (ingestedAll st ts te tas tae imgs).vectorstore := by
      unfold ingestedAll condIngestImage
      by_cases himg : imgs ≠ []
      · rw [if_pos himg]
        exact ingested_vectorstore_old _ imgs imgs "image" d hd2
      · rw [if_neg himg]
        exact hd2
    exact ⟨hlk3, d, hd3, ha, hb, hcc⟩
  · intro i hi
    have htasne : tas ≠ [] := by
      intro hc
      rw [hc] at hi
      exact absurd hi (by simp)
    have htaene : tae ≠ [] := by
      intro hc
      rw [hc] at h2
      simp only [List.length_nil] at h2
      rw [h2] at hi
      exact absurd hi (by simp)
    have hc2 : condIngest (condIngest st ts te "text") tas tae "table" =
        ingested (condIngest st ts te "text") tas tae "table" := by
      unfold condIngest
      rw [if_pos ⟨htasne, htaene⟩]
    have hkey : (condIngest st ts te "text").nextId + i =
        st.nextId + ts.length + i := by
      rw [hn1]
    have hlt2 : st.nextId + ts.length + i <
        (condIngest (condIngest st ts te "text") tas tae "table").nextId := by
      rw [hn2]
      exact Nat.add_lt_add_left hi _
    have hlk2 : (condIngest (condIngest st ts te "text") tas tae
        "table").docstore (st.nextId + ts.length + i) = tae[i]? := by
      rw [hc2, ← hkey]
      exact ingested_lookup_new (condIngest st ts te "text") tas tae
        "table" h2 i hi
    have hlk3 : (ingestedAll st ts te tas tae imgs).docstore
        (st.nextId + ts.length + i) = tae[i]? := by
      unfold ingestedAll condIngestImage
      by_cases himg : imgs ≠ []
      · rw [if_pos himg,
          ingested_lookup_frame _ imgs imgs "image" _ hlt2]
        exact hlk2
      · rw [if_neg himg]
        exact hlk2
    obtain ⟨d, hd, ha, hb, hcc, _⟩ := ingested_vectorstore_new
      (condIngest st ts te "text") tas tae "table" h2 i hi
    rw [hkey] at ha
    have hd2 : d ∈ (condIngest (condIngest st ts te "text") tas tae
        "table").vectorstore := by
      rw [hc2]
      exact hd
    have hd3 : d ∈ (ingestedAll st ts te tas tae imgs).vectorstore := by
      unfold ingestedAll condIngestImage
      by_cases himg : imgs ≠ []
      · rw [if_pos himg]
        exact ingested_vectorstore_old _ imgs imgs "image" d hd2
      · rw [if_neg himg]
        exact hd2
    exact ⟨hlk3, d, hd3, ha, hb, hcc⟩

/-- C6 witness: one text pair and one image summary ingested into the
fresh retriever; the image entry's stored content is the image summary
itself, while the text entry's stored content is the original payload. -/
theorem C6_image_special_case_witness :
    ∃ st', add_all_content emptyRetrieverState ["tsum"] ["telt"] [] []
        ["isum"] = (st', none) ∧
      st'.docstore (emptyRetrieverState.nextId + 1 + 0 + 0) =
        (["isum"] : List String)[0]? ∧
      st'.docstore (emptyRetrieverState.nextId + 0) =
        (["telt"] : List String)[0]? := by
  obtain ⟨st', heq, himg, htext, _⟩ := C6_image_special_case
    emptyRetrieverState ["tsum"] ["telt"] [] [] ["isum"] rfl rfl
  obtain ⟨himg0, _⟩ := himg 0 (by decide)
  obtain ⟨htext0, _⟩ := htext 0 (by decide)
  exact ⟨st', heq, himg0, htext0⟩
